import Mathlib

/-!
Shallow embedding of the retrieval engine of the RAG chatbot repository
(`utils/retrieval.py`, class `VectorDB`, together with the per-file
extraction outcomes of `file_processor.py`).

Modelling conventions:
  * Embedding vectors are lists of rationals (`Vec`); the claims under
    verification depend only on comparisons and shapes, not on float
    rounding.
  * The external FAISS flat L2 index (`faiss.IndexFlatL2`) is modelled by
    `FaissIndex`: `search` computes squared-L2 distances to every stored
    vector, sorts ascending, takes the first `k`, and pads missing slots
    with the sentinel `-1`, per the library's documented contract.
  * The external sentence-transformer embedder is an abstract fallible
    function `List String → Except Unit (List Vec)` carried in the state.
  * The persistence directory is a `Disk` with two independent optional
    artifacts; an artifact that is present but unreadable (corrupt) is
    `some (.error ())`.  I/O failures while saving are injected through
    the boolean parameters `okIx`/`okMeta`.
  * Python exceptions are `Except Unit`; a method that catches exceptions
    and keeps running is a total function, a method that lets them
    propagate returns `Except`.
  * A documents directory is the list of file names paired with the
    outcome of `FileProcessor.process_file` on them: `none` when
    extraction failed or the format was rejected (the caller catches any
    exception and also skips), `some t` when it returned text `t`
    (possibly empty, which Python's `if text:` treats as falsy).
-/

abbrev Vec := List Rat

structure Metadata where
  source : String
  deriving Repr, DecidableEq

structure QueryResult where
  documents : List String
  metadatas : List Metadata
  deriving Repr, DecidableEq

structure FaissIndex where
  d : Nat
  xs : List Vec
  deriving Repr, DecidableEq

def FaissIndex.ntotal (ix : FaissIndex) : Nat := ix.xs.length

/-- Comparison of (distance, id) pairs by distance: the order in which a
flat L2 index reports its neighbors. -/
def distLE (a b : Rat × Int) : Prop := a.1 ≤ b.1

instance : DecidableRel distLE := fun a b => inferInstanceAs (Decidable (a.1 ≤ b.1))

instance : IsTotal (Rat × Int) distLE := ⟨fun a b => le_total a.1 b.1⟩

instance : IsTrans (Rat × Int) distLE := ⟨fun _ _ _ h1 h2 => le_trans h1 h2⟩

/-- Squared Euclidean distance between a query vector and a stored vector. -/
def sqL2 (q v : Vec) : Rat := ((q.zip v).map (fun p => (p.1 - p.2) ^ 2)).sum

/-- Every stored vector paired with its distance to the query and its id. -/
def FaissIndex.scored (ix : FaissIndex) (q : Vec) : List (Rat × Int) :=
  (List.range ix.xs.length).map (fun i => (sqL2 q (ix.xs.getD i []), (i : Int)))

/-- Models `IndexFlatL2.search`: exhaustive scan, ascending distance, the `k`
nearest ids; slots beyond the number of stored vectors are filled with the
sentinel `-1` (distances padded arbitrarily with `0`). -/
def FaissIndex.search (ix : FaissIndex) (q : Vec) (k : Nat) : List Int × List Rat :=
  let sorted := List.insertionSort distLE (ix.scored q)
  let top := sorted.take k
  (top.map Prod.snd ++ List.replicate (k - top.length) (-1),
   top.map Prod.fst ++ List.replicate (k - top.length) 0)

/-- The persistence directory: `index.faiss` and `metadata.pkl`.  `none`
means the file is absent; `some (.error ())` means it is present but
deserialising it fails. -/
structure Disk where
  indexFile : Option (Except Unit FaissIndex)
  metaFile : Option (Except Unit (List String × List Metadata))

/-- Models `VectorDB._index_exists`: both artifacts must be present. -/
def indexExists (disk : Disk) : Bool :=
  disk.indexFile.isSome && disk.metaFile.isSome

/-- Reading an artifact: a missing file raises, a corrupt file raises. -/
def readArtifact {α : Type} : Option (Except Unit α) → Except Unit α
  | none => .error ()
  | some r => r

structure VectorDB where
  embedder : List String → Except Unit (List Vec)
  index : Option FaissIndex
  documents : List String
  metadata : List Metadata
  embedding_dim : Nat

/-- Models `VectorDB._load_index`: read both artifacts; on success install all
three pieces of state, on any failure absorb the exception and set
`index := none` (documents/metadata keep their previous value, as in the
Python `except` branch). -/
def VectorDB.loadIndexRun (db : VectorDB) (disk : Disk) : VectorDB :=
  match readArtifact disk.indexFile with
  | .error _ => { db with index := none }
  | .ok ix =>
    match readArtifact disk.metaFile with
    | .error _ => { db with index := none }
    | .ok dm => { db with index := some ix, documents := dm.1, metadata := dm.2 }

/-- Models `VectorDB.__init__`: fresh empty state with `embedding_dim = 384`,
then load the persisted index if `_index_exists()`. -/
def VectorDB.startup (embedder : List String → Except Unit (List Vec))
    (disk : Disk) : VectorDB :=
  let db : VectorDB :=
    { embedder := embedder, index := none, documents := [], metadata := [],
      embedding_dim := 384 }
  if indexExists disk then db.loadIndexRun disk else db

/-- A documents directory: file names with their extraction outcomes. -/
abbrev Directory := List (String × Option String)

/-- One iteration of the loop in `_process_new_documents`: skip failures
and falsy (empty) text, otherwise append text and `{source: file_name}` in
lockstep and count the success. -/
def ingestStep (acc : VectorDB × Nat) (e : String × Option String) : VectorDB × Nat :=
  match e.2 with
  | some t =>
    if t = "" then acc
    else
      ({ acc.1 with documents := acc.1.documents ++ [t],
                    metadata := acc.1.metadata ++ [{ source := e.1 }] }, acc.2 + 1)
  | none => acc

/-- Models `VectorDB._process_new_documents`: fold the loop over the directory
listing; report whether `success_count > 0`. -/
def VectorDB.processNewDocuments (db : VectorDB) (dir : Directory) : VectorDB × Bool :=
  let r := dir.foldl ingestStep (db, 0)
  (r.1, r.2 != 0)

/-- Shape check performed by `np.array(...).astype('float32')` followed by
`embeddings.shape[1]`: a ragged or empty batch has no second axis (raises),
a proper matrix reports its row length. -/
def uniformDim : List Vec → Option Nat
  | [] => none
  | v :: vs => if vs.all (fun w => w.length == v.length) then some v.length else none

/-- Models `VectorDB._save_index`: write the index artifact then the metadata
artifact; an I/O failure (injected via `okIx`/`okMeta`) or a `None` index
raises, and the exception propagates after logging.  The disk keeps
whatever was written before the failure point. -/
def VectorDB.saveIndexRun (db : VectorDB) (disk : Disk) (okIx okMeta : Bool) :
    Except Unit Unit × Disk :=
  match db.index with
  | none => (.error (), disk)
  | some ix =>
    if okIx then
      let disk1 : Disk := { disk with indexFile := some (.ok ix) }
      if okMeta then
        (.ok (), { disk1 with metaFile := some (.ok (db.documents, db.metadata)) })
      else (.error (), disk1)
    else (.error (), disk)

/-- Models `VectorDB._create_new_index`: encode all documents in one batch,
check the matrix dimension against `embedding_dim` (mismatch raises
`ValueError` before any index is built), then build a flat index over the
embeddings and persist.  Errors propagate. -/
def VectorDB.createNewIndex (db : VectorDB) (disk : Disk) (okIx okMeta : Bool) :
    Except Unit Unit × VectorDB × Disk :=
  match db.embedder db.documents with
  | .error e => (.error e, db, disk)
  | .ok embeds =>
    match uniformDim embeds with
    | none => (.error (), db, disk)
    | some d =>
      if d ≠ db.embedding_dim then (.error (), db, disk)
      else
        let db1 := { db with index := some { d := db.embedding_dim, xs := embeds } }
        let r := db1.saveIndexRun disk okIx okMeta
        (r.1, db1, r.2)

/-- Models `VectorDB.add_documents` (the spec's `buildOrLoad`): reuse the
existing index when both artifacts exist and documents are loaded;
otherwise ingest the directory, fail if nothing was processed, else build
and persist a new index. -/
def VectorDB.addDocuments (db : VectorDB) (disk : Disk) (dir : Directory)
    (okIx okMeta : Bool) : Except Unit Bool × VectorDB × Disk :=
  if indexExists disk && db.documents.length != 0 then (.ok true, db, disk)
  else
    let p := db.processNewDocuments dir
    if p.2 then
      let r := p.1.createNewIndex disk okIx okMeta
      match r.1 with
      | .ok _ => (.ok true, r.2.1, r.2.2)
      | .error e => (.error e, r.2.1, r.2.2)
    else (.ok false, p.1, disk)

/-- Models `k = min(k, self.index.ntotal) if self.index.ntotal > 0 else 0`. -/
def clampK (k n : Nat) : Nat := if 0 < n then min k n else 0

/-- The result-accumulation loop of `VectorDB.query`: walk the returned
ids in order, skip the `-1` sentinel, look up document and metadata (an
out-of-range id raises, as Python list indexing would). -/
def collectResults (ds : List String) (ms : List Metadata) :
    List Int → Except Unit (List String × List Metadata)
  | [] => .ok ([], [])
  | i :: rest =>
    if 0 ≤ i then
      match ds.get? i.toNat, ms.get? i.toNat with
      | some d, some m =>
        match collectResults ds ms rest with
        | .ok r => .ok (d :: r.1, m :: r.2)
        | .error e => .error e
      | _, _ => .error ()
    else collectResults ds ms rest

/-- The body of the `try` block of `VectorDB.query`: embed, dereference
the (possibly `None`) index, clamp `k`, return empty immediately on an
empty index, otherwise search and accumulate results.  A malformed
embedding batch makes the search raise. -/
def VectorDB.queryCore (db : VectorDB) (qt : String) (k : Nat) :
    Except Unit QueryResult :=
  match db.embedder [qt] with
  | .error e => .error e
  | .ok embeds =>
    match db.index with
    | none => .error ()
    | some ix =>
      if clampK k ix.ntotal = 0 then .ok { documents := [], metadatas := [] }
      else
        match embeds with
        | [q] =>
          match collectResults db.documents db.metadata
              (ix.search q (clampK k ix.ntotal)).1 with
          | .ok r => .ok { documents := r.1, metadatas := r.2 }
          | .error e => .error e
        | _ => .error ()

/-- Models `VectorDB.query`: the `try/except` wrapper — any internal error is
absorbed and becomes the empty result. -/
def VectorDB.query (db : VectorDB) (qt : String) (k : Nat) : QueryResult :=
  match db.queryCore qt k with
  | .ok r => r
  | .error _ => { documents := [], metadatas := [] }

/-- Reports `index.ntotal` of the current index, `0` when absent. -/
def VectorDB.indexCount (db : VectorDB) : Nat :=
  match db.index with
  | some ix => ix.ntotal
  | none => 0

/-- The (file name, text) pairs the ingestion loop accepts, in directory
order: extraction succeeded with non-empty text. -/
def successes (dir : Directory) : List (String × String) :=
  dir.filterMap (fun e =>
    match e.2 with
    | some t => if t = "" then none else some (e.1, t)
    | none => none)

/-! ### Helper lemmas about the query path -/

lemma query_of_core_ok (db : VectorDB) (qt : String) (k : Nat) (r : QueryResult)
    (h : db.queryCore qt k = .ok r) : db.query qt k = r := by
  simp [VectorDB.query, h]

lemma query_of_core_error (db : VectorDB) (qt : String) (k : Nat) (e : Unit)
    (h : db.queryCore qt k = .error e) :
    db.query qt k = { documents := [], metadatas := [] } := by
  simp [VectorDB.query, h]

lemma collectResults_ok_length (ds : List String) (ms : List Metadata) :
    ∀ (l : List Int) (r : List String × List Metadata),
      collectResults ds ms l = .ok r →
      r.1.length ≤ l.length ∧ r.1.length = r.2.length
  | [], r, h => by
    rw [collectResults] at h
    injection h with h2
    rw [← h2]
    simp
  | i :: rest, r, h => by
    rw [collectResults] at h
    split at h
    · rcases hd : ds.get? i.toNat with _ | d <;> rw [hd] at h
      · exact Except.noConfusion h
      · rcases hm : ms.get? i.toNat with _ | m <;> rw [hm] at h
        · exact Except.noConfusion h
        · rcases hr : collectResults ds ms rest with e | rr <;> rw [hr] at h
          · exact Except.noConfusion h
          · obtain ⟨ih1, ih2⟩ := collectResults_ok_length ds ms rest rr hr
            injection h with h2
            rw [← h2]
            constructor
            · simpa using Nat.succ_le_succ ih1
            · simpa using ih2
    · obtain ⟨ih1, ih2⟩ := collectResults_ok_length ds ms rest r h
      exact ⟨le_trans ih1 (by simp), ih2⟩

lemma search_fst_length (ix : FaissIndex) (q : Vec) (k : Nat) :
    ((ix.search q k).1).length = k := by
  simp [FaissIndex.search]

lemma clampK_le_min (k n : Nat) : clampK k n ≤ min k n := by
  unfold clampK
  split <;> omega

lemma clampK_eq_min (k n : Nat) : clampK k n = min k n := by
  unfold clampK
  split <;> omega

lemma queryCore_ok_len (db : VectorDB) (qt : String) (k : Nat) (r : QueryResult)
    (h : db.queryCore qt k = .ok r) :
    ∃ ix, db.index = some ix ∧ r.documents.length ≤ clampK k ix.ntotal ∧
      r.documents.length = r.metadatas.length := by
  unfold VectorDB.queryCore at h
  split at h
  · exact Except.noConfusion h
  · split at h
    · exact Except.noConfusion h
    · rename_i ix hix
      refine ⟨ix, hix, ?_⟩
      split at h
      · -- empty index: immediate empty result
        injection h with h2
        rw [← h2]
        simp
      · split at h
        · -- the embedding batch is a single row
          split at h
          · rename_i rr hrr
            obtain ⟨hl1, hl2⟩ :=
              collectResults_ok_length db.documents db.metadata _ rr hrr
            rw [search_fst_length] at hl1
            injection h with h2
            rw [← h2]
            exact ⟨hl1, hl2⟩
          · exact Except.noConfusion h
        · exact Except.noConfusion h

/-- Claim C1: for every query text and every topK, any internal error during
query processing (embedding failure, uninitialized index, or any error in
the query core) makes `query` return `{documents := [], metadatas := []}`;
the wrapper is a total function, so no exception reaches the caller. -/
theorem claim_c1_query_fails_closed (db : VectorDB) (qt : String) (k : Nat) :
    ((db.embedder [qt]).isOk = false →
      db.query qt k = { documents := [], metadatas := [] }) ∧
    (db.index = none → db.query qt k = { documents := [], metadatas := [] }) ∧
    (∀ e, db.queryCore qt k = .error e →
      db.query qt k = { documents := [], metadatas := [] }) := by
  refine ⟨?_, ?_, fun e h => query_of_core_error db qt k e h⟩
  · intro hemb
    rcases he : db.embedder [qt] with e | embeds
    · exact query_of_core_error db qt k e (by unfold VectorDB.queryCore; rw [he])
    · rw [he] at hemb
      simp [Except.isOk, Except.toBool] at hemb
  · intro hix
    rcases he : db.embedder [qt] with e | embeds
    · exact query_of_core_error db qt k e (by unfold VectorDB.queryCore; rw [he])
    · refine query_of_core_error db qt k () ?_
      unfold VectorDB.queryCore
      rw [he, hix]

def failEmb : List String → Except Unit (List Vec) := fun _ => .error ()

def v384 : Vec := List.replicate 384 0

def dbFail : VectorDB :=
  { embedder := failEmb, index := some { d := 384, xs := [v384] },
    documents := ["doc"], metadata := [{ source := "a.txt" }],
    embedding_dim := 384 }

theorem claim_c1_witness :
    (dbFail.embedder ["q"]).isOk = false ∧
    dbFail.query "q" 3 = { documents := [], metadatas := [] } :=
  ⟨rfl, (claim_c1_query_fails_closed dbFail "q" 3).1 rfl⟩

/-- Claim C2: the requested count is clamped to `min(topK, index.count)`; an
empty index (count 0) yields the empty result; and in all cases the number
of returned documents is at most `min(topK, index.count)`. -/
theorem claim_c2_topk_clamped (db : VectorDB) (qt : String) (k : Nat) :
    (db.query qt k).documents.length ≤ min k db.indexCount ∧
    (db.indexCount = 0 → db.query qt k = { documents := [], metadatas := [] }) ∧
    (∀ ix, db.index = some ix → clampK k ix.ntotal = min k ix.ntotal) := by
  refine ⟨?_, ?_, fun ix _ => clampK_eq_min k ix.ntotal⟩
  · rcases hq : db.queryCore qt k with e | r
    · rw [query_of_core_error db qt k e hq]
      simp
    · rw [query_of_core_ok db qt k r hq]
      obtain ⟨ix, hix, hlen, _⟩ := queryCore_ok_len db qt k r hq
      have hc : db.indexCount = ix.ntotal := by simp [VectorDB.indexCount, hix]
      rw [hc]
      exact le_trans hlen (clampK_le_min k ix.ntotal)
  · intro hcount
    rcases hq : db.queryCore qt k with e | r
    · exact query_of_core_error db qt k e hq
    · rw [query_of_core_ok db qt k r hq]
      obtain ⟨ix, hix, hlen, heq⟩ := queryCore_ok_len db qt k r hq
      have hn : ix.ntotal = 0 := by
        simpa [VectorDB.indexCount, hix] using hcount
      rw [hn] at hlen
      rcases r with ⟨d, ms⟩
      simp [clampK] at hlen heq
      subst hlen
      simp only [QueryResult.mk.injEq, true_and]
      simpa using heq.symm

def okEmb : List String → Except Unit (List Vec) := fun ts => .ok (ts.map (fun _ => v384))

def dbEmpty : VectorDB :=
  { embedder := okEmb, index := some { d := 384, xs := [] },
    documents := [], metadata := [], embedding_dim := 384 }

theorem claim_c2_witness :
    dbEmpty.indexCount = 0 ∧
    dbEmpty.query "q" 3 = { documents := [], metadatas := [] } :=
  ⟨rfl, (claim_c2_topk_clamped dbEmpty "q" 3).2.1 rfl⟩

/-! ### Persistence claims -/

/-- Claim C7: the persisted-index presence check reports true exactly when both
artifacts are present; in particular a directory holding the index
artifact but not the metadata artifact is reported absent. -/
theorem claim_c7_exists_needs_both (disk : Disk) :
    (indexExists disk = true ↔
      disk.indexFile.isSome = true ∧ disk.metaFile.isSome = true) ∧
    (disk.metaFile = none → indexExists disk = false) := by
  constructor
  · simp [indexExists]
  · intro h
    simp [indexExists, h]

def halfDisk : Disk :=
  { indexFile := some (.ok { d := 384, xs := [] }), metaFile := none }

theorem claim_c7_witness :
    halfDisk.metaFile = none ∧ indexExists halfDisk = false :=
  ⟨rfl, (claim_c7_exists_needs_both halfDisk).2 rfl⟩

/-- Claim C8: a failed or corrupt read of either artifact is absorbed by
`_load_index` and downgraded to the index-absent state (`index := none`),
while a failed save raises: `_save_index` re-raises after logging, so the
exception propagates to the caller. -/
theorem claim_c8_load_absorbs_save_raises :
    (∀ (db : VectorDB) (disk : Disk),
      (readArtifact disk.indexFile).isOk = false ∨
        (readArtifact disk.metaFile).isOk = false →
      (db.loadIndexRun disk).index = none) ∧
    (∀ (db : VectorDB) (disk : Disk) (okIx okMeta : Bool),
      okIx = false ∨ okMeta = false →
      (db.saveIndexRun disk okIx okMeta).1 = .error ()) := by
  constructor
  · intro db disk h
    unfold VectorDB.loadIndexRun
    rcases hix : readArtifact disk.indexFile with e | ix
    · rfl
    · rcases hm : readArtifact disk.metaFile with e | dm
      · rfl
      · exfalso
        rcases h with h | h
        · rw [hix] at h
          simp [Except.isOk, Except.toBool] at h
        · rw [hm] at h
          simp [Except.isOk, Except.toBool] at h
  · intro db disk okIx okMeta h
    unfold VectorDB.saveIndexRun
    rcases db.index with _ | ix
    · rfl
    · rcases h with h | h <;> subst h
      · simp
      · cases okIx <;> simp

def corruptDisk : Disk :=
  { indexFile := some (.error ()),
    metaFile := some (.ok (["doc"], [{ source := "a.txt" }])) }

theorem claim_c8_witness :
    (readArtifact corruptDisk.indexFile).isOk = false ∧
    (dbFail.loadIndexRun corruptDisk).index = none :=
  ⟨rfl, claim_c8_load_absorbs_save_raises.1 dbFail corruptDisk (Or.inl rfl)⟩

/-! ### Ingestion claims -/

lemma ingestStep_skip (acc : VectorDB × Nat) (e : String × Option String)
    (h : e.2 = none ∨ e.2 = some "") : ingestStep acc e = acc := by
  rcases h with h | h <;> simp [ingestStep, h]

lemma foldl_ingest_skip : ∀ (dir : Directory) (acc : VectorDB × Nat),
    (∀ e ∈ dir, e.2 = none ∨ e.2 = some "") →
    dir.foldl ingestStep acc = acc
  | [], _, _ => rfl
  | e :: rest, acc, h => by
    rw [List.foldl_cons, ingestStep_skip acc e (h e (by simp))]
    exact foldl_ingest_skip rest acc (fun x hx => h x (by simp [hx]))

lemma processNew_all_skip (db : VectorDB) (dir : Directory)
    (h : ∀ e ∈ dir, e.2 = none ∨ e.2 = some "") :
    db.processNewDocuments dir = (db, false) := by
  unfold VectorDB.processNewDocuments
  rw [foldl_ingest_skip dir (db, 0) h]
  rfl

/-- Claim C4: when no file is processed successfully (in particular when the
documents directory is empty), `add_documents` returns failure and no
artifacts are written to disk; the in-memory state is untouched too. -/
theorem claim_c4_no_success_no_artifacts (db : VectorDB) (disk : Disk)
    (dir : Directory) (okIx okMeta : Bool)
    (hfresh : db.documents = [])
    (hdir : ∀ e ∈ dir, e.2 = none ∨ e.2 = some "") :
    db.addDocuments disk dir okIx okMeta = (.ok false, db, disk) := by
  have hp := processNew_all_skip db dir hdir
  unfold VectorDB.addDocuments
  simp [hfresh, hp]

def emptyDisk : Disk := { indexFile := none, metaFile := none }

def okEmbWit : List String → Except Unit (List Vec) :=
  fun ts => .ok (ts.map (fun _ => v384))

def dbFresh : VectorDB := VectorDB.startup okEmbWit emptyDisk

theorem claim_c4_witness :
    dbFresh.documents = [] ∧
    dbFresh.addDocuments emptyDisk [] true true = (.ok false, dbFresh, emptyDisk) :=
  ⟨rfl, claim_c4_no_success_no_artifacts dbFresh emptyDisk [] true true rfl
    (by simp)⟩

/-- Claim C5: an embedding matrix whose dimension differs from the configured
`embedding_dim` (384 after `__init__`) makes `_create_new_index` raise
before any index is built: the error propagates and neither the in-memory
state nor the disk changes, so nothing is silently truncated or padded. -/
theorem claim_c5_dim_mismatch_fatal (db : VectorDB) (disk : Disk)
    (okIx okMeta : Bool) (embeds : List Vec) (d : Nat)
    (h1 : db.embedder db.documents = .ok embeds)
    (h2 : uniformDim embeds = some d)
    (h3 : d ≠ db.embedding_dim) :
    db.createNewIndex disk okIx okMeta = (.error (), db, disk) := by
  unfold VectorDB.createNewIndex
  rw [h1]
  simp [h2, h3]

def badEmb : List String → Except Unit (List Vec) :=
  fun ts => .ok (ts.map (fun _ => [0]))

def dbBad : VectorDB :=
  { embedder := badEmb, index := none, documents := ["doc"],
    metadata := [{ source := "a.txt" }], embedding_dim := 384 }

theorem claim_c5_witness :
    dbBad.embedder dbBad.documents = .ok [[0]] ∧
    uniformDim [[0]] = some 1 ∧ (1 : Nat) ≠ dbBad.embedding_dim ∧
    dbBad.createNewIndex emptyDisk true true = (.error (), dbBad, emptyDisk) :=
  ⟨rfl, rfl, by decide,
    claim_c5_dim_mismatch_fatal dbBad emptyDisk true true [[0]] 1 rfl rfl
      (by decide)⟩

/-- Claim C10: a file whose extraction succeeds but yields the empty string is
silently skipped — it adds nothing to documents or metadata and does not
count toward the at-least-one-success requirement — so a directory
containing only such files makes `add_documents` return failure. -/
theorem claim_c10_empty_text_skipped :
    (∀ (db : VectorDB) (d1 d2 : Directory) (name : String),
      db.processNewDocuments (d1 ++ (name, some "") :: d2) =
        db.processNewDocuments (d1 ++ d2)) ∧
    (∀ (db : VectorDB) (disk : Disk) (dir : Directory) (okIx okMeta : Bool),
      db.documents = [] → (∀ e ∈ dir, e.2 = some "") →
      (db.addDocuments disk dir okIx okMeta).1 = .ok false) := by
  constructor
  · intro db d1 d2 name
    unfold VectorDB.processNewDocuments
    rw [List.foldl_append, List.foldl_cons,
      ingestStep_skip _ _ (Or.inr rfl), ← List.foldl_append]
  · intro db disk dir okIx okMeta hfresh hdir
    have hp := processNew_all_skip db dir (fun e he => Or.inr (hdir e he))
    unfold VectorDB.addDocuments
    simp [hfresh, hp]

theorem claim_c10_witness :
    dbFresh.documents = [] ∧
    (dbFresh.addDocuments emptyDisk [("empty.txt", some "")] true true).1 =
      .ok false :=
  ⟨rfl, claim_c10_empty_text_skipped.2 dbFresh emptyDisk
    [("empty.txt", some "")] true true rfl (by simp)⟩

/-! ### Characterising a fresh build -/

lemma foldl_ingest_spec : ∀ (dir : Directory) (db : VectorDB) (c : Nat),
    dir.foldl ingestStep (db, c) =
      ({ db with
          documents := db.documents ++ (successes dir).map Prod.snd,
          metadata := db.metadata ++
            (successes dir).map (fun s => { source := s.1 }) },
        c + (successes dir).length)
  | [], db, c => by simp [successes]
  | (name, t) :: rest, db, c => by
    rcases t with _ | t
    · rw [List.foldl_cons, ingestStep_skip _ _ (Or.inl rfl),
        foldl_ingest_spec rest db c]
      simp [successes, List.filterMap_cons]
    · by_cases ht : t = ""
      · subst ht
        rw [List.foldl_cons, ingestStep_skip _ _ (Or.inr rfl),
          foldl_ingest_spec rest db c]
        simp [successes, List.filterMap_cons]
      · have hstep : ingestStep (db, c) (name, some t) =
            ({ db with documents := db.documents ++ [t],
                       metadata := db.metadata ++ [{ source := name }] },
              c + 1) := by
          simp [ingestStep, ht]
        rw [List.foldl_cons, hstep, foldl_ingest_spec rest _ _]
        simp [successes, List.filterMap_cons, ht]
        omega

lemma processNew_spec (db : VectorDB) (dir : Directory) :
    db.processNewDocuments dir =
      ({ db with
          documents := db.documents ++ (successes dir).map Prod.snd,
          metadata := db.metadata ++
            (successes dir).map (fun s => { source := s.1 }) },
        (successes dir).length != 0) := by
  unfold VectorDB.processNewDocuments
  rw [foldl_ingest_spec dir db 0]
  simp

lemma createNewIndex_ok (db : VectorDB) (disk : Disk) (okIx okMeta : Bool)
    (db2 : VectorDB) (disk2 : Disk)
    (h : db.createNewIndex disk okIx okMeta = (.ok (), db2, disk2)) :
    ∃ embeds, db.embedder db.documents = .ok embeds ∧
      uniformDim embeds = some db.embedding_dim ∧
      db2 = { db with index := some { d := db.embedding_dim, xs := embeds } } ∧
      disk2.indexFile = some (.ok { d := db.embedding_dim, xs := embeds }) ∧
      disk2.metaFile = some (.ok (db.documents, db.metadata)) := by
  unfold VectorDB.createNewIndex at h
  split at h
  · simp at h
  · rename_i embeds hemb
    split at h
    · simp at h
    · rename_i d hdim
      split at h
      · simp at h
      · rename_i hne
        have hd : d = db.embedding_dim := not_not.mp hne
        subst hd
        refine ⟨embeds, hemb, hdim, ?_⟩
        unfold VectorDB.saveIndexRun at h
        simp at h
        obtain ⟨h1, h2, h3⟩ := h
        cases okIx with
        | false => simp at h1
        | true =>
          cases okMeta with
          | false => simp at h1
          | true =>
            simp at h3
            exact ⟨h2.symm, by rw [← h3], by rw [← h3]⟩

lemma addDocuments_fresh_ok (db : VectorDB) (disk : Disk) (dir : Directory)
    (db2 : VectorDB) (disk2 : Disk) (okIx okMeta : Bool)
    (hd : db.documents = [])
    (h : db.addDocuments disk dir okIx okMeta = (.ok true, db2, disk2)) :
    successes dir ≠ [] ∧
    ∃ embeds,
      db2.documents = (successes dir).map Prod.snd ∧
      db2.metadata = db.metadata ++
        (successes dir).map (fun s => { source := s.1 }) ∧
      db2.embedder = db.embedder ∧
      db2.embedding_dim = db.embedding_dim ∧
      db.embedder ((successes dir).map Prod.snd) = .ok embeds ∧
      uniformDim embeds = some db.embedding_dim ∧
      db2.index = some { d := db.embedding_dim, xs := embeds } ∧
      disk2.indexFile = some (.ok { d := db.embedding_dim, xs := embeds }) ∧
      disk2.metaFile = some (.ok (db2.documents, db2.metadata)) := by
  unfold VectorDB.addDocuments at h
  have hcond : (indexExists disk && db.documents.length != 0) = false := by
    rw [hd]
    simp
  rw [hcond, processNew_spec db dir, hd] at h
  simp only [Bool.false_eq_true, if_false, List.nil_append] at h
  by_cases hs : successes dir = []
  · rw [hs] at h
    simp at h
  · refine ⟨hs, ?_⟩
    have hcond2 : (((successes dir).length != 0) = true) := by
      simp only [bne_iff_ne, ne_eq]
      intro hh
      exact hs (List.length_eq_zero.mp hh)
    rw [if_pos hcond2] at h
    rcases hr : VectorDB.createNewIndex
        { embedder := db.embedder, index := db.index,
          documents := (successes dir).map Prod.snd,
          metadata := db.metadata ++
            (successes dir).map (fun s => { source := s.1 }),
          embedding_dim := db.embedding_dim } disk okIx okMeta
      with ⟨res, db2x, disk2x⟩
    rw [hr] at h
    rcases res with e | u
    · simp at h
    · cases u
      simp at h
      obtain ⟨hdb, hdisk⟩ := h
      subst hdb
      subst hdisk
      obtain ⟨embeds, hembeds, hdim, hdb2eq, hix, hmeta⟩ :=
        createNewIndex_ok _ disk okIx okMeta db2x disk2x hr
      subst hdb2eq
      exact ⟨embeds, rfl, rfl, rfl, rfl, hembeds, hdim, rfl, hix, hmeta⟩

/-- Claim C6: after a successful fresh build, `index.count`, `len(documents)`
and `len(metadata)` agree, and documents and metadata are appended in
lockstep — entry `i` of both sequences comes from the same directory
entry; after loading artifacts written by a successful save of a
consistent state, the same count invariant holds and the loaded pair is
exactly the saved one. -/
theorem claim_c6_lockstep_invariant :
    (∀ (db : VectorDB) (disk : Disk) (dir : Directory) (db2 : VectorDB)
        (disk2 : Disk) (okIx okMeta : Bool),
      db.documents = [] → db.metadata = [] →
      (∀ ts es, db.embedder ts = .ok es → es.length = ts.length) →
      db.addDocuments disk dir okIx okMeta = (.ok true, db2, disk2) →
      (∃ ix, db2.index = some ix ∧ ix.ntotal = db2.documents.length) ∧
      db2.documents.length = db2.metadata.length ∧
      db2.documents = (successes dir).map Prod.snd ∧
      db2.metadata = (successes dir).map (fun s => { source := s.1 })) ∧
    (∀ (dbS dbAny : VectorDB) (ix : FaissIndex) (disk disk2 : Disk),
      dbS.index = some ix → ix.ntotal = dbS.documents.length →
      dbS.documents.length = dbS.metadata.length →
      dbS.saveIndexRun disk true true = (.ok (), disk2) →
      (∃ ix2, (dbAny.loadIndexRun disk2).index = some ix2 ∧
        ix2.ntotal = (dbAny.loadIndexRun disk2).documents.length) ∧
      (dbAny.loadIndexRun disk2).documents.length =
        (dbAny.loadIndexRun disk2).metadata.length ∧
      (dbAny.loadIndexRun disk2).documents = dbS.documents ∧
      (dbAny.loadIndexRun disk2).metadata = dbS.metadata) := by
  constructor
  · intro db disk dir db2 disk2 okIx okMeta hd hm hlen h
    obtain ⟨hs, embeds, h1, h2, h3, h4, h5, h6, h7, h8, h9⟩ :=
      addDocuments_fresh_ok db disk dir db2 disk2 okIx okMeta hd h
    have hel : embeds.length = ((successes dir).map Prod.snd).length :=
      hlen _ _ h5
    refine ⟨⟨{ d := db.embedding_dim, xs := embeds }, h7, ?_⟩, ?_, h1, ?_⟩
    · rw [h1]
      simpa [FaissIndex.ntotal] using hel
    · rw [h1, h2, hm]
      simp
    · rw [h2, hm]
      simp
  · intro dbS dbAny ix disk disk2 hix hcount hmm hsave
    have hdisk : disk2 = { disk with
        indexFile := some (.ok ix),
        metaFile := some (.ok (dbS.documents, dbS.metadata)) } := by
      unfold VectorDB.saveIndexRun at hsave
      rw [hix] at hsave
      simp at hsave
      exact hsave.symm
    subst hdisk
    exact ⟨⟨ix, rfl, hcount⟩, hmm, rfl, rfl⟩

set_option maxRecDepth 100000

def dirOne : Directory := [("a.txt", some "hello")]

def run1 : Except Unit Bool × VectorDB × Disk :=
  dbFresh.addDocuments emptyDisk dirOne true true

lemma okEmbWit_len (ts : List String) (es : List Vec)
    (h : okEmbWit ts = .ok es) : es.length = ts.length := by
  unfold okEmbWit at h
  injection h with h2
  rw [← h2]
  simp

theorem claim_c6_witness :
    (∃ ix, run1.2.1.index = some ix ∧ ix.ntotal = run1.2.1.documents.length) ∧
    run1.2.1.documents.length = run1.2.1.metadata.length ∧
    run1.2.1.documents = (successes dirOne).map Prod.snd ∧
    run1.2.1.metadata = (successes dirOne).map (fun s => { source := s.1 }) :=
  claim_c6_lockstep_invariant.1 dbFresh emptyDisk dirOne run1.2.1 run1.2.2
    true true rfl rfl (fun ts es h => okEmbWit_len ts es h) rfl

/-- Claim C9: calling `add_documents` a second time with the same documents
directory after a first successful fresh build takes the reuse branch: it
returns success without re-ingesting, and both the in-memory state and
the persisted artifacts stay exactly as the first call left them. -/
theorem claim_c9_idempotent_reuse (db : VectorDB) (disk : Disk)
    (dir : Directory) (db2 : VectorDB) (disk2 : Disk) (okIx2 okMeta2 : Bool)
    (hd : db.documents = [])
    (h : db.addDocuments disk dir true true = (.ok true, db2, disk2)) :
    db2.addDocuments disk2 dir okIx2 okMeta2 = (.ok true, db2, disk2) := by
  obtain ⟨hs, embeds, h1, h2, h3, h4, h5, h6, h7, h8, h9⟩ :=
    addDocuments_fresh_ok db disk dir db2 disk2 true true hd h
  have hnonempty : db2.documents.length ≠ 0 := by
    rw [h1]
    simp only [List.length_map, ne_eq, List.length_eq_zero]
    exact hs
  have hex : indexExists disk2 = true := by
    simp [indexExists, h8, h9]
  have hcond : (indexExists disk2 && db2.documents.length != 0) = true := by
    rw [hex]
    simp [hnonempty]
  unfold VectorDB.addDocuments
  rw [hcond]
  simp

theorem claim_c9_witness :
    dbFresh.documents = [] ∧
    run1.2.1.addDocuments run1.2.2 dirOne true true =
      (.ok true, run1.2.1, run1.2.2) :=
  ⟨rfl, claim_c9_idempotent_reuse dbFresh emptyDisk dirOne run1.2.1 run1.2.2
    true true rfl rfl⟩

/-! ### The ranked, threshold-free result assembly -/

lemma collectResults_ok_of_valid (ds : List String) (ms : List Metadata) :
    ∀ (l : List Int),
      (∀ i ∈ l, 0 ≤ i → (i.toNat < ds.length ∧ i.toNat < ms.length)) →
      collectResults ds ms l =
        .ok (l.filterMap (fun i => if 0 ≤ i then ds.get? i.toNat else none),
             l.filterMap (fun i => if 0 ≤ i then ms.get? i.toNat else none))
  | [], _ => by simp [collectResults]
  | i :: rest, hv => by
    rw [collectResults]
    by_cases hi : 0 ≤ i
    · obtain ⟨hdl, hml⟩ := hv i (by simp) hi
      rw [if_pos hi, List.get?_eq_get hdl, List.get?_eq_get hml,
        collectResults_ok_of_valid ds ms rest
          (fun x hx hx0 => hv x (List.mem_cons_of_mem i hx) hx0)]
      simp [List.filterMap_cons, hi, List.getElem?_eq_getElem hdl,
        List.getElem?_eq_getElem hml]
    · rw [if_neg hi,
        collectResults_ok_of_valid ds ms rest
          (fun x hx hx0 => hv x (List.mem_cons_of_mem i hx) hx0)]
      simp [List.filterMap_cons, hi]

lemma search_fst_mem (ix : FaissIndex) (q : Vec) (k : Nat) (i : Int)
    (h : i ∈ (ix.search q k).1) : i = -1 ∨ (0 ≤ i ∧ i.toNat < ix.ntotal) := by
  simp only [FaissIndex.search, List.mem_append] at h
  rcases h with h | h
  · right
    obtain ⟨p, hp, hpi⟩ := List.mem_map.mp h
    have hp2 : p ∈ List.insertionSort distLE (ix.scored q) :=
      List.mem_of_mem_take hp
    rw [List.mem_insertionSort] at hp2
    unfold FaissIndex.scored at hp2
    obtain ⟨j, hj, hje⟩ := List.mem_map.mp hp2
    rw [List.mem_range] at hj
    have hsnd : p.2 = (j : Int) := by rw [← hje]
    rw [← hpi, hsnd]
    unfold FaissIndex.ntotal
    omega
  · left
    exact List.eq_of_mem_replicate h

lemma search_snd_sorted (ix : FaissIndex) (q : Vec) (k : Nat)
    (hk : k ≤ ix.ntotal) : ((ix.search q k).2).Sorted (fun a b => a ≤ b) := by
  have hlen : (List.insertionSort distLE (ix.scored q)).length = ix.ntotal := by
    simp [FaissIndex.scored, FaissIndex.ntotal]
  have htake : ((List.insertionSort distLE (ix.scored q)).take k).length = k := by
    rw [List.length_take, hlen]
    omega
  have hs : List.Sorted distLE ((List.insertionSort distLE (ix.scored q)).take k) :=
    List.Pairwise.sublist (List.take_sublist k _)
      (List.sorted_insertionSort distLE _)
  have hmap : List.Sorted (fun a b => a ≤ b)
      (((List.insertionSort distLE (ix.scored q)).take k).map Prod.fst) :=
    List.Pairwise.map Prod.fst (fun a b hab => hab) hs
  simp only [FaissIndex.search, htake, Nat.sub_self, List.replicate_zero,
    List.append_nil]
  exact hmap

/-- Claim C3: a successful query assembles its result by walking the ids the
search returned — ordered by ascending distance, best match first —
appending the corresponding document text and metadata for every
non-negative id and skipping the `-1` sentinel, with no distance
threshold applied. -/
theorem claim_c3_ranked_no_threshold (db : VectorDB) (qt : String) (k : Nat)
    (ix : FaissIndex) (q : Vec)
    (hix : db.index = some ix)
    (hemb : db.embedder [qt] = .ok [q])
    (hd : db.documents.length = ix.ntotal)
    (hm : db.metadata.length = ix.ntotal) :
    db.queryCore qt k =
      .ok { documents := ((ix.search q (clampK k ix.ntotal)).1).filterMap
              (fun i => if 0 ≤ i then db.documents.get? i.toNat else none),
            metadatas := ((ix.search q (clampK k ix.ntotal)).1).filterMap
              (fun i => if 0 ≤ i then db.metadata.get? i.toNat else none) } ∧
    ((ix.search q (clampK k ix.ntotal)).2).Sorted (fun a b => a ≤ b) := by
  have hvalid : ∀ i ∈ (ix.search q (clampK k ix.ntotal)).1, 0 ≤ i →
      (i.toNat < db.documents.length ∧ i.toNat < db.metadata.length) := by
    intro i hi h0
    rcases search_fst_mem ix q _ i hi with h | h
    · omega
    · rw [hd, hm]
      exact ⟨h.2, h.2⟩
  have hcollect := collectResults_ok_of_valid db.documents db.metadata
    (ix.search q (clampK k ix.ntotal)).1 hvalid
  constructor
  · have hstep : db.queryCore qt k =
        if clampK k ix.ntotal = 0 then .ok { documents := [], metadatas := [] }
        else
          match collectResults db.documents db.metadata
              (ix.search q (clampK k ix.ntotal)).1 with
          | .ok r => .ok { documents := r.1, metadatas := r.2 }
          | .error e => .error e := by
      unfold VectorDB.queryCore
      rw [hemb, hix]
    rw [hstep, hcollect]
    by_cases h0 : clampK k ix.ntotal = 0
    · rw [if_pos h0, h0]
      simp [FaissIndex.search]
    · rw [if_neg h0]
  · exact search_snd_sorted ix q _
      (le_trans (clampK_le_min k ix.ntotal) (min_le_right _ _))

def dbOne : VectorDB :=
  { embedder := okEmbWit, index := some { d := 384, xs := [v384] },
    documents := ["doc"], metadata := [{ source := "a.txt" }],
    embedding_dim := 384 }

theorem claim_c3_witness :
    dbOne.queryCore "q" 3 =
      .ok { documents :=
              ((FaissIndex.search { d := 384, xs := [v384] } v384
                  (clampK 3 (FaissIndex.ntotal { d := 384, xs := [v384] }))).1).filterMap
                (fun i => if 0 ≤ i then dbOne.documents.get? i.toNat else none),
            metadatas :=
              ((FaissIndex.search { d := 384, xs := [v384] } v384
                  (clampK 3 (FaissIndex.ntotal { d := 384, xs := [v384] }))).1).filterMap
                (fun i => if 0 ≤ i then dbOne.metadata.get? i.toNat else none) } ∧
    ((FaissIndex.search { d := 384, xs := [v384] } v384
        (clampK 3 (FaissIndex.ntotal { d := 384, xs := [v384] }))).2).Sorted
      (fun a b => a ≤ b) :=
  claim_c3_ranked_no_threshold dbOne "q" 3 { d := 384, xs := [v384] } v384
    rfl rfl rfl rfl
